import Mathlib

/-!
Verification of the prompt-construction core of the Imagen book-scene app
(`app.py`).  The Lean definitions below are a shallow embedding of the
Python functions `_build_prompt` (with its inner helper `_append_if_content`)
and of the blank-passage guard in `main`.  Python strings become `String`,
Python truthiness of a string becomes comparison with `""`, `str.strip()`
becomes `pyStrip` below, and `" | ".join` becomes `String.intercalate " | "`.
-/

/-- The record of the six stylistic controls passed to `_build_prompt` as
keyword arguments, in the order they are declared in the source. -/
structure StyleOptions where
  art_style : String
  mood : String
  color_palette : String
  detail_level : String
  camera_focus : String
  era : String
deriving DecidableEq, Repr

/-- The two sentinel spellings used by the option catalogs: the generic
default marker and the "not chosen" marker. -/
def isSentinel (v : String) : Prop := v = "기본" ∨ v = "(선택 안 함)"

instance (v : String) : Decidable (isSentinel v) :=
  inferInstanceAs (Decidable (v = "기본" ∨ v = "(선택 안 함)"))

/-- The guard of `_append_if_content`: the Python condition
`value and value != "기본" and value != "(선택 안 함)"`. -/
def hasContent (v : String) : Prop :=
  v ≠ "" ∧ v ≠ "기본" ∧ v ≠ "(선택 안 함)"

instance (v : String) : Decidable (hasContent v) :=
  inferInstanceAs (Decidable (v ≠ "" ∧ v ≠ "기본" ∧ v ≠ "(선택 안 함)"))

/-- The inner helper `_append_if_content` of `_build_prompt`: append the
segment `f"{label}: {value}"` to `parts` when the value is non-empty and is
neither sentinel spelling. -/
def appendIfContent (label value : String) (parts : List String) : List String :=
  if hasContent value then parts ++ [label ++ ": " ++ value] else parts

/-- Python `str.strip()`: drop whitespace characters from both ends of the
string.  Models `passage.strip()` in `_build_prompt` and in `main` with a
structurally recursive function the kernel can evaluate. -/
def pyStrip (s : String) : String :=
  ⟨((s.data.dropWhile Char.isWhitespace).reverse.dropWhile Char.isWhitespace).reverse⟩

/-- The Python function `_build_prompt`: strip the passage, seed the parts
list with it when non-empty, run `_append_if_content` on the six fields in
declaration order, and join with `" | "`. -/
def build_prompt (passage : String) (s : StyleOptions) : String :=
  let p := pyStrip passage
  let parts : List String := if p = "" then [] else [p]
  String.intercalate " | "
    (appendIfContent "Era" s.era
      (appendIfContent "Camera" s.camera_focus
        (appendIfContent "Detail" s.detail_level
          (appendIfContent "Colour palette" s.color_palette
            (appendIfContent "Mood" s.mood
              (appendIfContent "Art style" s.art_style parts))))))

/-- The sequence of `"Label: value"` segments contributed by the six style
fields: the list `_build_prompt` builds when the seed `parts` list is empty. -/
def fieldSegments (s : StyleOptions) : List String :=
  appendIfContent "Era" s.era
    (appendIfContent "Camera" s.camera_focus
      (appendIfContent "Detail" s.detail_level
        (appendIfContent "Colour palette" s.color_palette
          (appendIfContent "Mood" s.mood
            (appendIfContent "Art style" s.art_style [])))))

/-- Names for the six style fields, in the fixed order in which
`_build_prompt` emits them. -/
inductive StyleField where
  | art_style
  | mood
  | color_palette
  | detail_level
  | camera_focus
  | era
deriving DecidableEq, Fintype, Repr

/-- The value a `StyleOptions` record holds for a given field. -/
def StyleOptions.value (s : StyleOptions) : StyleField → String
  | .art_style => s.art_style
  | .mood => s.mood
  | .color_palette => s.color_palette
  | .detail_level => s.detail_level
  | .camera_focus => s.camera_focus
  | .era => s.era

/-- Replace the value of one field, leaving the others unchanged. -/
def StyleOptions.set (s : StyleOptions) : StyleField → String → StyleOptions
  | .art_style, v => { s with art_style := v }
  | .mood, v => { s with mood := v }
  | .color_palette, v => { s with color_palette := v }
  | .detail_level, v => { s with detail_level := v }
  | .camera_focus, v => { s with camera_focus := v }
  | .era, v => { s with era := v }

/-- The English label `_build_prompt` prints for each field. -/
def StyleField.label : StyleField → String
  | .art_style => "Art style"
  | .mood => "Mood"
  | .color_palette => "Colour palette"
  | .detail_level => "Detail"
  | .camera_focus => "Camera"
  | .era => "Era"

/-- The `"Label: value"` segment a field contributes when selected. -/
def segOf (f : StyleField) (s : StyleOptions) : String :=
  f.label ++ ": " ++ s.value f

/-- The order in which `_build_prompt` runs `_append_if_content` over the
fields. -/
def fieldOrder : List StyleField :=
  [.art_style, .mood, .color_palette, .detail_level, .camera_focus, .era]

/-- The option catalog of the art-style select box in `main`. -/
def artStyleOptions : List String :=
  ["기본", "수채화 일러스트", "시네마틱 사진", "디지털 페인팅", "유화", "픽셀 아트"]

/-- The option catalog of the mood select box in `main`. -/
def moodOptions : List String :=
  ["기본", "따뜻하고 포근한", "어둡고 미스터리한", "서스펜스 넘치는", "감성적인", "장엄하고 웅장한"]

/-- The option catalog of the colour select box in `main`. -/
def colorPaletteOptions : List String :=
  ["기본", "따뜻한 색조", "차가운 색조", "모노톤", "파스텔", "선명한 대비"]

/-- The option catalog of the detail select box in `main`. -/
def detailLevelOptions : List String :=
  ["기본", "초고해상도", "울트라 디테일", "꿈결 같은 소프트 포커스"]

/-- The option catalog of the camera select box in `main`. -/
def cameraFocusOptions : List String :=
  ["(선택 안 함)", "광각 뷰", "드론 뷰", "클로즈업", "시점 샷 (POV)", "시네마틱 와이드샷"]

/-- The option catalog of the era select box in `main`. -/
def eraOptions : List String :=
  ["(선택 안 함)", "현대", "중세 판타지", "빅토리아 시대", "사이버펑크", "포스트 아포칼립스"]

/-- The catalog from which each field draws its value. -/
def StyleField.catalog : StyleField → List String
  | .art_style => artStyleOptions
  | .mood => moodOptions
  | .color_palette => colorPaletteOptions
  | .detail_level => detailLevelOptions
  | .camera_focus => cameraFocusOptions
  | .era => eraOptions

/-- A `StyleOptions` record as produced by the UI: every field holds one of
the entries of its catalog. -/
def StyleOptions.valid (s : StyleOptions) : Prop :=
  ∀ f : StyleField, s.value f ∈ f.catalog

instance (s : StyleOptions) : Decidable s.valid :=
  inferInstanceAs (Decidable (∀ f : StyleField, s.value f ∈ f.catalog))

/-- A sentinel value never passes the `_append_if_content` guard. -/
theorem not_hasContent_of_sentinel {v : String} (h : isSentinel v) :
    ¬ hasContent v := by
  rcases h with rfl | rfl
  · rintro ⟨-, h2, -⟩; exact h2 rfl
  · rintro ⟨-, -, h3⟩; exact h3 rfl

/-- Unfolding `appendIfContent` when the guard fails. -/
theorem appendIfContent_of_not {v : String} (l : String) (parts : List String)
    (h : ¬ hasContent v) : appendIfContent l v parts = parts := by
  unfold appendIfContent
  exact if_neg h

/-- Unfolding `appendIfContent` when the guard holds. -/
theorem appendIfContent_of_has {v : String} (l : String) (parts : List String)
    (h : hasContent v) : appendIfContent l v parts = parts ++ [l ++ ": " ++ v] := by
  unfold appendIfContent
  exact if_pos h

/-- Joining a singleton list is the identity. -/
theorem intercalate_singleton (sep a : String) :
    String.intercalate sep [a] = a := rfl

/-- An all-sentinel record whose fields each hold the sentinel
spelling of their own catalog. -/
def sample0 : StyleOptions :=
  ⟨"기본", "기본", "기본", "기본", "(선택 안 함)", "(선택 안 함)"⟩

/-- C1: when all six fields hold a sentinel value, `_build_prompt` returns
exactly the trimmed passage; in particular an empty or whitespace-only
passage yields the empty string. -/
theorem all_sentinel_build_prompt_eq_trim (p : String) (s : StyleOptions)
    (h : ∀ f : StyleField, isSentinel (s.value f)) : build_prompt p s = pyStrip p := by
  simp only [build_prompt]
  have h1 : isSentinel s.art_style := h .art_style
  have h2 : isSentinel s.mood := h .mood
  have h3 : isSentinel s.color_palette := h .color_palette
  have h4 : isSentinel s.detail_level := h .detail_level
  have h5 : isSentinel s.camera_focus := h .camera_focus
  have h6 : isSentinel s.era := h .era
  rw [appendIfContent_of_not _ _ (not_hasContent_of_sentinel h1),
    appendIfContent_of_not _ _ (not_hasContent_of_sentinel h2),
    appendIfContent_of_not _ _ (not_hasContent_of_sentinel h3),
    appendIfContent_of_not _ _ (not_hasContent_of_sentinel h4),
    appendIfContent_of_not _ _ (not_hasContent_of_sentinel h5),
    appendIfContent_of_not _ _ (not_hasContent_of_sentinel h6)]
  by_cases hp : pyStrip p = ""
  · rw [if_pos hp, hp]
    rfl
  · rw [if_neg hp]
    exact intercalate_singleton _ _

/-- C1 witness: a whitespace-only passage with the all-sentinel record
composes to the empty string. -/
theorem all_sentinel_build_prompt_eq_trim_witness :
    build_prompt "  " sample0 = pyStrip "  " :=
  all_sentinel_build_prompt_eq_trim "  " sample0 (by decide)

/-- Outcome of pressing the generate button in `main`: either the
blank-passage warning (after which `st.stop()` aborts the run, so no
generation request is issued), or a generation request carrying the
composed prompt. -/
inductive SubmitOutcome where
  | warned
  | requested (prompt : String)
deriving DecidableEq, Repr

/-- The submission branch of `main`: `final_prompt` is computed by
`_build_prompt` from the passage and the six selections; on the button
press, a blank passage (`not passage.strip()`) triggers the warning and
stops, otherwise `generate_images` is called with `final_prompt`. -/
def submitAction (passage : String) (s : StyleOptions) : SubmitOutcome :=
  if pyStrip passage = "" then .warned
  else .requested (build_prompt passage s)

/-- C8: a blank (empty or whitespace-only) passage at submission time
produces the warning outcome and never a generation request. -/
theorem blank_passage_warns (passage : String) (s : StyleOptions)
    (h : pyStrip passage = "") :
    submitAction passage s = .warned ∧
      ∀ q : String, submitAction passage s ≠ .requested q := by
  have he : submitAction passage s = .warned := by
    unfold submitAction
    exact if_pos h
  refine ⟨he, fun q hq => ?_⟩
  rw [he] at hq
  exact SubmitOutcome.noConfusion hq

/-- C8 witness: the whitespace-only passage with the all-sentinel record is
rejected with a warning. -/
theorem blank_passage_warns_witness :
    submitAction "  " sample0 = .warned ∧
      ∀ q : String, submitAction "  " sample0 ≠ .requested q :=
  blank_passage_warns "  " sample0 (by decide)

/-- Membership in the list produced by one `appendIfContent` step. -/
theorem mem_appendIfContent {x l v : String} {parts : List String} :
    x ∈ appendIfContent l v parts ↔
      x ∈ parts ∨ (hasContent v ∧ x = l ++ ": " ++ v) := by
  unfold appendIfContent
  split
  · next hv => simp [hv]
  · next hv => simp [hv]

/-- A string is a field segment of the composed prompt exactly when some
field passes the `_append_if_content` guard and contributes it. -/
theorem mem_fieldSegments {s : StyleOptions} {x : String} :
    x ∈ fieldSegments s ↔
      ∃ g : StyleField, hasContent (s.value g) ∧ x = segOf g s := by
  unfold fieldSegments
  simp only [mem_appendIfContent, List.not_mem_nil, false_or]
  constructor
  · rintro (((((h | h) | h) | h) | h) | h)
    · exact ⟨.art_style, h⟩
    · exact ⟨.mood, h⟩
    · exact ⟨.color_palette, h⟩
    · exact ⟨.detail_level, h⟩
    · exact ⟨.camera_focus, h⟩
    · exact ⟨.era, h⟩
  · rintro ⟨g, hg, rfl⟩
    cases g
    · exact Or.inl (Or.inl (Or.inl (Or.inl (Or.inl ⟨hg, rfl⟩))))
    · exact Or.inl (Or.inl (Or.inl (Or.inl (Or.inr ⟨hg, rfl⟩))))
    · exact Or.inl (Or.inl (Or.inl (Or.inr ⟨hg, rfl⟩)))
    · exact Or.inl (Or.inl (Or.inr ⟨hg, rfl⟩))
    · exact Or.inl (Or.inr ⟨hg, rfl⟩)
    · exact Or.inr ⟨hg, rfl⟩

/-- A record whose only non-sentinel field is a whitespace-only mood. -/
def sampleSpaceMood : StyleOptions :=
  ⟨"기본", " ", "기본", "기본", "(선택 안 함)", "(선택 안 함)"⟩

/-- C10: a field value that passes the guard is inserted verbatim — the
segment is the label, a colon and a space, then the value exactly as given,
with no trimming (unlike the passage). -/
theorem value_inserted_verbatim (s : StyleOptions) (f : StyleField)
    (h : hasContent (s.value f)) :
    StyleField.label f ++ ": " ++ s.value f ∈ fieldSegments s :=
  mem_fieldSegments.mpr ⟨f, h, rfl⟩

/-- C10 witness: the whitespace-only mood value produces the segment with
its whitespace kept. -/
theorem value_inserted_verbatim_witness :
    "Mood" ++ ": " ++ " " ∈ fieldSegments sampleSpaceMood :=
  value_inserted_verbatim sampleSpaceMood .mood (by decide)

/-- The empty string never passes the `_append_if_content` guard. -/
theorem not_hasContent_empty : ¬ hasContent "" := by decide

/-- The default marker never passes the `_append_if_content` guard. -/
theorem not_hasContent_default : ¬ hasContent "기본" := by decide

/-- C5: replacing the value of a field by any sentinel spelling gives the same
prompt as replacing it by the other sentinel spelling — both are filtered
out by `_append_if_content`. -/
theorem sentinel_swap_prompt_eq (p : String) (s : StyleOptions)
    (f : StyleField) (v w : String) (hv : isSentinel v) (hw : isSentinel w) :
    build_prompt p (s.set f v) = build_prompt p (s.set f w) := by
  cases f <;>
    · simp only [build_prompt, StyleOptions.set]
      rw [appendIfContent_of_not _ _ (not_hasContent_of_sentinel hv),
        appendIfContent_of_not _ _ (not_hasContent_of_sentinel hw)]

/-- C5 witness: flipping the camera sentinel between its two spellings
leaves the prompt unchanged. -/
theorem sentinel_swap_prompt_eq_witness :
    build_prompt "hi" (sample0.set .camera_focus "기본")
      = build_prompt "hi" (sample0.set .camera_focus "(선택 안 함)") :=
  sentinel_swap_prompt_eq "hi" sample0 .camera_focus "기본" "(선택 안 함)"
    (by decide) (by decide)

/-- C9: a field holding the empty string — which is not a sentinel
spelling — is nevertheless omitted from the prompt, exactly as if it held a
sentinel. -/
theorem empty_value_omitted (p : String) (s : StyleOptions) (f : StyleField)
    (h : s.value f = "") :
    ¬ isSentinel (s.value f) ∧ build_prompt p s = build_prompt p (s.set f "기본") := by
  constructor
  · rw [h]
    decide
  · cases f <;>
      · simp only [StyleOptions.value] at h
        simp only [build_prompt, StyleOptions.set]
        rw [h, appendIfContent_of_not _ _ not_hasContent_empty,
          appendIfContent_of_not _ _ not_hasContent_default]

/-- A record whose mood field holds the empty string. -/
def sampleEmptyMood : StyleOptions :=
  ⟨"기본", "", "기본", "기본", "(선택 안 함)", "(선택 안 함)"⟩

/-- C9 witness: an empty mood value is not a sentinel and is omitted. -/
theorem empty_value_omitted_witness :
    ¬ isSentinel (sampleEmptyMood.value .mood) ∧
      build_prompt "x" sampleEmptyMood
        = build_prompt "x" (sampleEmptyMood.set .mood "기본") :=
  empty_value_omitted "x" sampleEmptyMood .mood rfl

/-- Every catalog entry other than a sentinel passes the
`_append_if_content` guard: the catalogs contain no empty string. -/
theorem hasContent_of_catalog :
    ∀ f : StyleField, ∀ v ∈ f.catalog, ¬ isSentinel v → hasContent v := by
  decide

/-- C2: with a blank passage and exactly one non-sentinel selection, the
prompt is that single `"Label: value"` segment, with no leading delimiter
and no passage segment. -/
theorem single_selection_prompt (p : String) (s : StyleOptions)
    (f : StyleField) (hv : s.valid) (hf : ¬ isSentinel (s.value f))
    (ho : ∀ g : StyleField, g ≠ f → isSentinel (s.value g))
    (hp : pyStrip p = "") :
    build_prompt p s = f.label ++ ": " ++ s.value f := by
  have hx : hasContent (s.value f) := hasContent_of_catalog f (s.value f) (hv f) hf
  cases f
  · have n2 : ¬ hasContent s.mood :=
      not_hasContent_of_sentinel (ho .mood (by decide))
    have n3 : ¬ hasContent s.color_palette :=
      not_hasContent_of_sentinel (ho .color_palette (by decide))
    have n4 : ¬ hasContent s.detail_level :=
      not_hasContent_of_sentinel (ho .detail_level (by decide))
    have n5 : ¬ hasContent s.camera_focus :=
      not_hasContent_of_sentinel (ho .camera_focus (by decide))
    have n6 : ¬ hasContent s.era :=
      not_hasContent_of_sentinel (ho .era (by decide))
    have p1 : hasContent s.art_style := hx
    simp only [build_prompt]
    rw [if_pos hp, appendIfContent_of_has _ _ p1, appendIfContent_of_not _ _ n2,
      appendIfContent_of_not _ _ n3, appendIfContent_of_not _ _ n4,
      appendIfContent_of_not _ _ n5, appendIfContent_of_not _ _ n6,
      List.nil_append]
    exact intercalate_singleton _ _
  · have n1 : ¬ hasContent s.art_style :=
      not_hasContent_of_sentinel (ho .art_style (by decide))
    have n3 : ¬ hasContent s.color_palette :=
      not_hasContent_of_sentinel (ho .color_palette (by decide))
    have n4 : ¬ hasContent s.detail_level :=
      not_hasContent_of_sentinel (ho .detail_level (by decide))
    have n5 : ¬ hasContent s.camera_focus :=
      not_hasContent_of_sentinel (ho .camera_focus (by decide))
    have n6 : ¬ hasContent s.era :=
      not_hasContent_of_sentinel (ho .era (by decide))
    have p2 : hasContent s.mood := hx
    simp only [build_prompt]
    rw [if_pos hp, appendIfContent_of_not _ _ n1, appendIfContent_of_has _ _ p2,
      appendIfContent_of_not _ _ n3, appendIfContent_of_not _ _ n4,
      appendIfContent_of_not _ _ n5, appendIfContent_of_not _ _ n6,
      List.nil_append]
    exact intercalate_singleton _ _
  · have n1 : ¬ hasContent s.art_style :=
      not_hasContent_of_sentinel (ho .art_style (by decide))
    have n2 : ¬ hasContent s.mood :=
      not_hasContent_of_sentinel (ho .mood (by decide))
    have n4 : ¬ hasContent s.detail_level :=
      not_hasContent_of_sentinel (ho .detail_level (by decide))
    have n5 : ¬ hasContent s.camera_focus :=
      not_hasContent_of_sentinel (ho .camera_focus (by decide))
    have n6 : ¬ hasContent s.era :=
      not_hasContent_of_sentinel (ho .era (by decide))
    have p3 : hasContent s.color_palette := hx
    simp only [build_prompt]
    rw [if_pos hp, appendIfContent_of_not _ _ n1, appendIfContent_of_not _ _ n2,
      appendIfContent_of_has _ _ p3, appendIfContent_of_not _ _ n4,
      appendIfContent_of_not _ _ n5, appendIfContent_of_not _ _ n6,
      List.nil_append]
    exact intercalate_singleton _ _
  · have n1 : ¬ hasContent s.art_style :=
      not_hasContent_of_sentinel (ho .art_style (by decide))
    have n2 : ¬ hasContent s.mood :=
      not_hasContent_of_sentinel (ho .mood (by decide))
    have n3 : ¬ hasContent s.color_palette :=
      not_hasContent_of_sentinel (ho .color_palette (by decide))
    have n5 : ¬ hasContent s.camera_focus :=
      not_hasContent_of_sentinel (ho .camera_focus (by decide))
    have n6 : ¬ hasContent s.era :=
      not_hasContent_of_sentinel (ho .era (by decide))
    have p4 : hasContent s.detail_level := hx
    simp only [build_prompt]
    rw [if_pos hp, appendIfContent_of_not _ _ n1, appendIfContent_of_not _ _ n2,
      appendIfContent_of_not _ _ n3, appendIfContent_of_has _ _ p4,
      appendIfContent_of_not _ _ n5, appendIfContent_of_not _ _ n6,
      List.nil_append]
    exact intercalate_singleton _ _
  · have n1 : ¬ hasContent s.art_style :=
      not_hasContent_of_sentinel (ho .art_style (by decide))
    have n2 : ¬ hasContent s.mood :=
      not_hasContent_of_sentinel (ho .mood (by decide))
    have n3 : ¬ hasContent s.color_palette :=
      not_hasContent_of_sentinel (ho .color_palette (by decide))
    have n4 : ¬ hasContent s.detail_level :=
      not_hasContent_of_sentinel (ho .detail_level (by decide))
    have n6 : ¬ hasContent s.era :=
      not_hasContent_of_sentinel (ho .era (by decide))
    have p5 : hasContent s.camera_focus := hx
    simp only [build_prompt]
    rw [if_pos hp, appendIfContent_of_not _ _ n1, appendIfContent_of_not _ _ n2,
      appendIfContent_of_not _ _ n3, appendIfContent_of_not _ _ n4,
      appendIfContent_of_has _ _ p5, appendIfContent_of_not _ _ n6,
      List.nil_append]
    exact intercalate_singleton _ _
  · have n1 : ¬ hasContent s.art_style :=
      not_hasContent_of_sentinel (ho .art_style (by decide))
    have n2 : ¬ hasContent s.mood :=
      not_hasContent_of_sentinel (ho .mood (by decide))
    have n3 : ¬ hasContent s.color_palette :=
      not_hasContent_of_sentinel (ho .color_palette (by decide))
    have n4 : ¬ hasContent s.detail_level :=
      not_hasContent_of_sentinel (ho .detail_level (by decide))
    have n5 : ¬ hasContent s.camera_focus :=
      not_hasContent_of_sentinel (ho .camera_focus (by decide))
    have p6 : hasContent s.era := hx
    simp only [build_prompt]
    rw [if_pos hp, appendIfContent_of_not _ _ n1, appendIfContent_of_not _ _ n2,
      appendIfContent_of_not _ _ n3, appendIfContent_of_not _ _ n4,
      appendIfContent_of_not _ _ n5, appendIfContent_of_has _ _ p6,
      List.nil_append]
    exact intercalate_singleton _ _

/-- A record whose only non-sentinel selection is the mood. -/
def sampleMoodOnly : StyleOptions :=
  ⟨"기본", "따뜻하고 포근한", "기본", "기본", "(선택 안 함)", "(선택 안 함)"⟩

/-- C2 witness: empty passage and a lone mood selection give exactly the
mood segment. -/
theorem single_selection_prompt_witness :
    build_prompt "" sampleMoodOnly = "Mood" ++ ": " ++ "따뜻하고 포근한" :=
  single_selection_prompt "" sampleMoodOnly .mood (by decide) (by decide)
    (by decide) (by decide)

/-- Two appended strings differ whenever neither of the two leading parts
is a list-prefix of the other. -/
theorem append_ne_of_take (L1 L2 : String)
    (h1 : L2.data.take L1.data.length ≠ L1.data)
    (h2 : L1.data.take L2.data.length ≠ L2.data)
    (a b : String) : L1 ++ a ≠ L2 ++ b := by
  intro h
  have hd : L1.data ++ a.data = L2.data ++ b.data := by
    simpa using congrArg String.data h
  rcases List.append_eq_append_iff.mp hd with ⟨t, ht, -⟩ | ⟨t, ht, -⟩
  · exact h1 (by rw [ht, List.take_left])
  · exact h2 (by rw [ht, List.take_left])

/-- Segments of distinct fields are distinct strings: the six labels are
pairwise incompatible as segment heads, whatever the field values are. -/
theorem segOf_ne {f g : StyleField} (hne : f ≠ g) (s t : StyleOptions) :
    segOf f s ≠ segOf g t := by
  cases f <;> cases g <;>
    first
    | exact absurd rfl hne
    | (simp only [segOf, StyleField.label]
       exact append_ne_of_take _ _ (by decide) (by decide) _ _)

/-- C3: a field whose value is either sentinel spelling contributes no
`"Label: value"` segment to the composed prompt, whichever field it is. -/
theorem sentinel_field_has_no_segment (s : StyleOptions) (f : StyleField)
    (h : isSentinel (s.value f)) : segOf f s ∉ fieldSegments s := by
  intro hm
  rcases mem_fieldSegments.mp hm with ⟨g, hg, he⟩
  rcases eq_or_ne g f with rfl | hne
  · exact not_hasContent_of_sentinel h hg
  · exact segOf_ne (Ne.symm hne) s s he

/-- C3 witness: the sentinel mood of the all-sentinel record yields no mood
segment. -/
theorem sentinel_field_has_no_segment_witness :
    segOf .mood sample0 ∉ fieldSegments sample0 :=
  sentinel_field_has_no_segment sample0 .mood (by decide)

/-- `_append_if_content` only ever appends on the right, so a prefix of the
parts list passes through unchanged. -/
theorem appendIfContent_append (l v : String) (xs ys : List String) :
    appendIfContent l v (xs ++ ys) = xs ++ appendIfContent l v ys := by
  unfold appendIfContent
  split
  · rw [List.append_assoc]
  · rfl

/-- The parts list built by `_build_prompt` is the seed list (the trimmed
passage, when non-empty) followed by the field segments. -/
theorem prompt_parts_decomp (s : StyleOptions) (parts : List String) :
    appendIfContent "Era" s.era
        (appendIfContent "Camera" s.camera_focus
          (appendIfContent "Detail" s.detail_level
            (appendIfContent "Colour palette" s.color_palette
              (appendIfContent "Mood" s.mood
                (appendIfContent "Art style" s.art_style parts)))))
      = parts ++ fieldSegments s := by
  conv_lhs => rw [show parts = parts ++ ([] : List String) from (List.append_nil parts).symm]
  rw [appendIfContent_append, appendIfContent_append, appendIfContent_append,
    appendIfContent_append, appendIfContent_append, appendIfContent_append]
  rfl

/-- The field segments are exactly the segments of the fields passing the
guard, kept in the fixed composition order. -/
theorem fieldSegments_eq_filter (s : StyleOptions) :
    fieldSegments s
      = (fieldOrder.filter fun f => decide (hasContent (s.value f))).map
          fun f => segOf f s := by
  by_cases h1 : hasContent s.art_style <;>
  by_cases h2 : hasContent s.mood <;>
  by_cases h3 : hasContent s.color_palette <;>
  by_cases h4 : hasContent s.detail_level <;>
  by_cases h5 : hasContent s.camera_focus <;>
  by_cases h6 : hasContent s.era <;>
    simp [fieldSegments, fieldOrder, appendIfContent, segOf, StyleField.label,
      StyleOptions.value, h1, h2, h3, h4, h5, h6]

/-- C4: the non-sentinel field segments appear in the prompt in the fixed
order art style, mood, palette, detail, camera, era.  The composer receives
the six selections as one record, so no supply or selection order can
influence this: the output order is always the order of `fieldOrder`. -/
theorem segments_in_fixed_order (s : StyleOptions) :
    fieldSegments s
      = (fieldOrder.filter fun f => decide (hasContent (s.value f))).map
          fun f => segOf f s :=
  fieldSegments_eq_filter s

/-- C7: the composer is a total pure function of its string inputs: for
every passage and all six field values — enumerated or not — the result is
the string given by this closed form, with no failure case anywhere. -/
theorem build_prompt_total_characterization (p : String) (s : StyleOptions) :
    build_prompt p s
      = String.intercalate " | "
          ((if pyStrip p = "" then [] else [pyStrip p])
            ++ (fieldOrder.filter fun f => decide (hasContent (s.value f))).map
                fun f => segOf f s) := by
  simp only [build_prompt]
  rw [prompt_parts_decomp, fieldSegments_eq_filter]

/-- C6: the documented scenario — passage with a mood and an era selection
composes to the expected string, the era segment last, after the mood. -/
theorem ocean_view_scenario :
    build_prompt "Ocean view"
        ⟨"기본", "따뜻하고 포근한", "기본", "기본", "(선택 안 함)", "현대"⟩
      = "Ocean view | Mood: 따뜻하고 포근한 | Era: 현대" := by
  decide
